import Mathlib

set_option maxHeartbeats 1000000

/-!
Shallow embedding of the agent orchestration core of the NEXO website-builder
backend (src/index.js): the Gemini response-text extraction, the exponential
backoff retry wrapper, the `runAgent` loop with its update-mode tool policy and
per-project history persistence, the `writeToFile` path parsing, and the
`/api/chat` session-history handling.

JavaScript conventions used throughout the embedding:
- machine `undefined` for an optional field is `Option.none`;
- string truthiness (`if (s)`) is "present and non-empty";
- thrown errors are `Except.error` carrying the error message;
- the process-wide `Map` objects are association lists with `Map.get`/`Map.set`
  semantics (`jsMapGet`/`jsMapSet`).
-/

/-- A JS value carried opaquely through the agent core (tool arguments and
tool-handler results). `runAgent` never inspects these: it passes the model's
argument object to the handler and echoes the handler's result back into the
conversation verbatim, so the embedding keeps them as tagged atoms. -/
inductive JsValue where
  | str (s : String)
  | num (n : Int)
  deriving DecidableEq, Repr

/-- Truthiness of an optional JS string field: `undefined` and `""` are falsy. -/
def optStrTruthy : Option String → Bool
  | none => false
  | some s => !s.isEmpty

/-- JS `Map.prototype.get` over an association list. -/
def jsMapGet {α : Type} : List (String × α) → String → Option α
  | [], _ => none
  | (k, v) :: rest, key => if k = key then some v else jsMapGet rest key

/-- JS `Map.prototype.set` over an association list: replace in place, or
append a fresh entry. -/
def jsMapSet {α : Type} : List (String × α) → String → α → List (String × α)
  | [], key, v => [(key, v)]
  | (k, w) :: rest, key, v =>
      if k = key then (key, v) :: rest else (k, w) :: jsMapSet rest key v

/-- Does the character list start with `pat`? -/
def charsStartsWith : List Char → List Char → Bool
  | _, [] => true
  | [], _ :: _ => false
  | c :: cs, p :: ps => c = p && charsStartsWith cs ps

/-- Does `pat` occur as a contiguous run anywhere in the character list? -/
def charsContains (pat : List Char) : List Char → Bool
  | [] => pat.isEmpty
  | c :: cs => charsStartsWith (c :: cs) pat || charsContains pat cs

/-- JS `String.prototype.startsWith`. -/
def strStartsWith (s p : String) : Bool :=
  charsStartsWith s.data p.data

/-- JS `String.prototype.includes`. -/
def jsIncludes (s pat : String) : Bool :=
  charsContains pat.data s.data

deriving instance DecidableEq for Except

/-- One element of `candidate.content.parts` in a Gemini response. -/
structure RespPart where
  text : Option String
  deriving DecidableEq, Repr

/-- `candidate.content` in a Gemini response; `parts` may be absent. -/
structure RespContent where
  parts : Option (List RespPart)
  deriving DecidableEq, Repr

/-- One element of `response.candidates` in a Gemini response. -/
structure Candidate where
  finishReason : Option String
  content : Option RespContent
  text : Option String
  deriving DecidableEq, Repr

/-- A tool invocation requested by the model: `{name, args}`. -/
structure FunctionCall where
  name : String
  args : JsValue
  deriving DecidableEq, Repr

/-- The shape of a Gemini `generateContent` response as `runAgent` and
`extractResponseText` consume it. -/
structure GenResponse where
  text : Option String
  candidates : Option (List Candidate)
  functionCalls : Option (List FunctionCall)
  deriving DecidableEq, Repr

/-- `extractResponseText(response)` from src/index.js. Returns the extracted
text (`.ok`, possibly `undefined` when the first part has no `text` field) or
the message of the thrown `Error` (`.error`). The branch order mirrors the
source: direct `response.text`, the malformed-function-call check, then
`candidate.content.parts[0]`, `candidate.text`, the parts-missing fallback to
`''`, and finally the throwing branches. -/
def extractResponseText (r : GenResponse) : Except String (Option String) :=
  if optStrTruthy r.text then .ok r.text
  else
    match r.candidates with
    | some (candidate :: _) =>
      if candidate.finishReason = some "MALFORMED_FUNCTION_CALL" then
        .error "AI made a malformed function call. Please try again with a simpler description."
      else
        match candidate.content with
        | some content =>
          match content.parts with
          | some (p :: _) => .ok p.text
          | some [] =>
            if optStrTruthy candidate.text then .ok candidate.text
            else .error "Unexpected candidate structure from AI"
          | none =>
            if optStrTruthy candidate.text then .ok candidate.text
            else .ok (some "")
        | none =>
          if optStrTruthy candidate.text then .ok candidate.text
          else .error "Unexpected candidate structure from AI"
    | _ => .error "Unexpected response format from AI"

/-- The `for (let attempt = 1; attempt <= maxRetries; attempt++)` loop of
`retryWithBackoff` from src/index.js, recursing on the number of attempts still
permitted (`maxRetries - attempt + 1`). `fn` gives the outcome of the wrapped
operation at each attempt number. Returns the overall outcome (`.ok none`
models the JS function falling off the loop and returning `undefined`), the
number of invocations of `fn`, and the list of delays slept. -/
def retryLoop {α : Type} (fn : Nat → Except String α) (baseDelay : Nat) :
    Nat → Nat → Except String (Option α) × Nat × List Nat
  | _, 0 => (.ok none, 0, [])
  | attempt, remaining + 1 =>
    match fn attempt with
    | .ok v => (.ok (some v), 1, [])
    | .error e =>
      if remaining = 0 then (.error e, 1, [])
      else if !e.isEmpty && jsIncludes e "503" then
        let r := retryLoop fn baseDelay (attempt + 1) remaining
        (r.1, r.2.1 + 1, baseDelay * 2 ^ (attempt - 1) :: r.2.2)
      else (.error e, 1, [])

/-- `retryWithBackoff(fn, maxRetries, baseDelay)` from src/index.js: run the
attempt loop starting at attempt 1. -/
def retryWithBackoff {α : Type} (fn : Nat → Except String α)
    (maxRetries baseDelay : Nat) : Except String (Option α) × Nat × List Nat :=
  retryLoop fn baseDelay 1 maxRetries

/-- One conversation part, as pushed into `currentHistory` by `runAgent`:
a text part, a `functionCall` part, or a `functionResponse` part. The text
payload is optional because `extractResponseText` can return `undefined`. -/
inductive TurnPart where
  | text (t : Option String)
  | functionCall (fc : FunctionCall)
  | functionResponse (name : String) (result : JsValue)
  deriving DecidableEq, Repr

/-- One conversation turn: `{role, parts}`. -/
structure Turn where
  role : String
  parts : List TurnPart
  deriving DecidableEq, Repr

/-- A user turn with plain text, `{role: 'user', parts: [{text}]}`. -/
def userTextTurn (t : String) : Turn := ⟨"user", [.text (some t)]⟩

/-- A model turn with (possibly undefined) text. -/
def modelTextTurn (t : Option String) : Turn := ⟨"model", [.text t]⟩

/-- The model turn recording a tool call,
`{role: 'model', parts: [{functionCall}]}`. -/
def modelCallTurn (fc : FunctionCall) : Turn := ⟨"model", [.functionCall fc]⟩

/-- The user turn recording a tool result,
`{role: 'user', parts: [{functionResponse: {name, response: {result}}}]}`. -/
def userResultTurn (name : String) (result : JsValue) : Turn :=
  ⟨"user", [.functionResponse name result]⟩

/-- The corrective message injected after a `MALFORMED_FUNCTION_CALL` response
(src/index.js, `runAgent`). -/
def malformedCorrectionText (projectName : String) : String :=
  "🚨 ERROR: Your last function call was malformed. Please follow these rules EXACTLY:\n\n1. For writeToFile, the filePath MUST be in this exact format:\n   - \"projects/" ++ projectName ++ "/index.html\"\n   - \"projects/" ++ projectName ++ "/style.css\"\n   - \"projects/" ++ projectName ++ "/script.js\"\n\n2. Make sure all required parameters are provided correctly\n3. Use valid JSON format for all arguments\n4. Do NOT add extra fields or modify the function signature\n\nPlease try again with the correct format."

/-- The corrective message injected when the model requests `writeToFile`
during an update run. -/
def writeToFileCorrectionText (projectName : String) : String :=
  "🚨 ERROR: You cannot use writeToFile tool for updates. You MUST use updateProjectFiles tool to modify existing files in project \"" ++ projectName ++ "\". Please try again with the correct tool."

/-- The corrective message injected when the model requests any tool other
than updateProjectFiles, readProjectFiles or listProjects during an update
run. -/
def updatePolicyCorrectionText (name : String) : String :=
  "🚨 ERROR: For updates, you should use updateProjectFiles tool to modify files. You used " ++ name ++ " which is not appropriate for updates. Please use updateProjectFiles to make the requested changes."

/-- Which of the two rejection messages the update-mode policy produces for a
disallowed tool name (the `writeToFile` check fires first in the source). -/
def updateRejectionText (projectName name : String) : String :=
  if name = "writeToFile" then writeToFileCorrectionText projectName
  else updatePolicyCorrectionText name

/-- Truthiness of a file entry in the map returned by `readProjectFiles`
(content present and non-empty). -/
def fileTruthy (m : List (String × String)) (k : String) : Bool :=
  optStrTruthy (jsMapGet m k)

/-- The `🚨 UPDATE CONTEXT` seeding turn built from the existing-files map. -/
def updateContextTurn (projectName : String) (m : List (String × String)) : Turn :=
  userTextTurn
    ("🚨 UPDATE CONTEXT: I want to update the existing project \"" ++ projectName ++
      "\". Here are the current files:\n\nHTML: " ++
      (if fileTruthy m "index.html" then "Present" else "Missing") ++
      "\nCSS: " ++ (if fileTruthy m "style.css" then "Present" else "Missing") ++
      "\nJavaScript: " ++ (if fileTruthy m "script.js" then "Present" else "Missing") ++
      "\n\nIMPORTANT: You MUST use the updateProjectFiles tool to modify these existing files. DO NOT use writeToFile. Make ONLY the requested changes while preserving everything else.")

/-- The seeding turn that quotes the current style.css content. -/
def cssContextTurn (css : String) : Turn :=
  userTextTurn
    ("CURRENT CSS CONTENT:\n" ++ css ++
      "\n\nPlease analyze this CSS and make ONLY the requested changes (like color changes from red to black) while keeping everything else exactly the same.")

/-- The result of the `readProjectFiles` collaborator as observed by
`runAgent`'s update seeding: a rejected promise (caught and swallowed by the
surrounding try/catch), an `Error: ...` string value, or a file-name →
content map. -/
inductive ReadFilesOutcome where
  | thrown (e : String)
  | errString (s : String)
  | files (m : List (String × String))
  deriving DecidableEq, Repr

/-- The context turns `runAgent` appends before the new user request.
Mirrors the `if (isUpdate && projectName) { try { ... } catch ... }` block:
nothing unless this is an update run with a truthy project name; nothing when
the read throws or yields a string (`typeof existingFiles === 'object'` fails)
or an object with a truthy `error` key; otherwise the structured summary turn,
plus the literal-CSS turn when `style.css` is present and non-empty. -/
def seedTurns (isUpdate : Bool) (projectName : String) (rf : ReadFilesOutcome) :
    List Turn :=
  if isUpdate && !projectName.isEmpty then
    match rf with
    | .thrown _ => []
    | .errString _ => []
    | .files m =>
      if fileTruthy m "error" then []
      else
        updateContextTurn projectName m ::
          (if fileTruthy m "style.css" then
            [cssContextTurn ((jsMapGet m "style.css").getD "")]
          else [])
  else []

/-- The keys of the `availableTools` object (src/index.js). -/
def availableToolNames : List String :=
  ["executeCommand", "writeToFile", "listProjects", "readProjectFiles",
   "updateProjectFiles", "deployProject", "translateContent"]

/-- The tools that `runAgent` invokes with the acting user id
(`if (name === 'writeToFile' || ... )` in the dispatch). -/
def userScopedTools : List String :=
  ["writeToFile", "readProjectFiles", "updateProjectFiles", "deployProject"]

/-- The `response.candidates && response.candidates[0] &&
response.candidates[0].finishReason === 'MALFORMED_FUNCTION_CALL'` check. -/
def isMalformedResponse (r : GenResponse) : Bool :=
  match r.candidates with
  | some (c :: _) => c.finishReason = some "MALFORMED_FUNCTION_CALL"
  | _ => false

/-- How a `runAgent` invocation can end in the embedding. `outOfScript` means
the supplied schedule of backend outcomes was exhausted before the loop
terminated (the source loop would simply keep generating). -/
inductive RunOutcome where
  | returned (text : Option String)
  | threw (e : String)
  | outOfScript
  deriving DecidableEq, Repr

/-- The `while (true)` loop of `runAgent` (src/index.js). Each list element
describes, per retry attempt, the outcome of one `ai.models.generateContent`
call; the loop feeds it through `retryWithBackoff` with the source defaults
(3 attempts, 1000ms base delay). State: the local `currentHistory` and an
instrumentation log of the tool-handler invocations actually performed.
Branches, in source order: the malformed-function-call correction, the two
update-mode policy rejections, tool dispatch (appending the model
`functionCall` turn and the user `functionResponse` turn), and the terminal
plain-text branch via `extractResponseText`. An unknown tool name models the
`availableTools[name]` lookup yielding `undefined` and the call throwing. -/
def agentLoop (isUpdate : Bool) (projectName : String) (userId : Option String)
    (toolExec : String → JsValue → Option String → JsValue) :
    List (Nat → Except String GenResponse) → List Turn →
    List (String × JsValue) → RunOutcome × List Turn × List (String × JsValue)
  | [], hist, callLog => (.outOfScript, hist, callLog)
  | fn :: rest, hist, callLog =>
    match (retryWithBackoff fn 3 1000).1 with
    | .error e => (.threw e, hist, callLog)
    | .ok none => (.threw "TypeError: Cannot read properties of undefined", hist, callLog)
    | .ok (some r) =>
      if isMalformedResponse r then
        agentLoop isUpdate projectName userId toolExec rest
          (hist ++ [userTextTurn (malformedCorrectionText projectName)]) callLog
      else
        match r.functionCalls with
        | some (fc :: _) =>
          if isUpdate && fc.name = "writeToFile" then
            agentLoop isUpdate projectName userId toolExec rest
              (hist ++ [userTextTurn (writeToFileCorrectionText projectName)]) callLog
          else if isUpdate && fc.name ≠ "updateProjectFiles" &&
              fc.name ≠ "readProjectFiles" && fc.name ≠ "listProjects" then
            agentLoop isUpdate projectName userId toolExec rest
              (hist ++ [userTextTurn (updatePolicyCorrectionText fc.name)]) callLog
          else if availableToolNames.contains fc.name then
            let uid := if userScopedTools.contains fc.name then userId else none
            let result := toolExec fc.name fc.args uid
            agentLoop isUpdate projectName userId toolExec rest
              (hist ++ [modelCallTurn fc, userResultTurn fc.name result])
              (callLog ++ [(fc.name, fc.args)])
          else (.threw "TypeError: funCall is not a function", hist, callLog)
        | _ =>
          match extractResponseText r with
          | .error e => (.threw e, hist, callLog)
          | .ok t => (.returned t, hist ++ [modelTextTurn t], callLog)

/-- The process-wide `ProjectHistory` map. -/
abbrev Store := List (String × List Turn)

/-- The `if (!ProjectHistory.has(projectName)) ProjectHistory.set(projectName, [])`
prologue of `runAgent`. -/
def ensureProjectEntry (store : Store) (projectName : String) : Store :=
  match jsMapGet store projectName with
  | some _ => store
  | none => jsMapSet store projectName []

/-- What a `runAgent` invocation produces: its outcome, the resulting
`ProjectHistory` map, and the log of tool-handler invocations. -/
structure AgentResult where
  outcome : RunOutcome
  store : Store
  toolCalls : List (String × JsValue)
  deriving DecidableEq, Repr

/-- `runAgent(userProblem, projectName, isUpdate, userId)` from src/index.js.
The backend and the collaborators are supplied as data: `readFiles` is what
`readProjectFiles` yields during update seeding, `toolExec` the tool-handler
results, and `events` the schedule of `generateContent` outcomes. The
history is copied into the local `currentHistory`, seeded, extended by the
new user request, and run through the loop; it is written back to the store
only on the plain-text terminal branch. -/
def runAgent (store : Store) (userProblem projectName : String) (isUpdate : Bool)
    (userId : Option String) (readFiles : ReadFilesOutcome)
    (toolExec : String → JsValue → Option String → JsValue)
    (events : List (Nat → Except String GenResponse)) : AgentResult :=
  let store1 := ensureProjectEntry store projectName
  let base := (jsMapGet store1 projectName).getD []
  let current := base ++ seedTurns isUpdate projectName readFiles ++
    [userTextTurn userProblem]
  match agentLoop isUpdate projectName userId toolExec events current [] with
  | (.returned t, hist, callLog) =>
    ⟨.returned t, jsMapSet store1 projectName hist, callLog⟩
  | (o, _, callLog) => ⟨o, store1, callLog⟩

/-- One entry of a `/api/chat` session history: `{role, content}`. -/
structure ChatMsg where
  role : String
  content : String
  deriving DecidableEq, Repr

/-- The process-wide `ChatHistory` map. -/
abbrev ChatStore := List (String × List ChatMsg)

/-- How the body of the `/api/chat` handler between the user push and the
model push can end: the early `return res.json(...)` taken when the message
mentions a project that does not exist, a thrown error reaching the outer
catch, or a successful `handleChatMessage` response with the given text. -/
inductive ChatOutcome where
  | earlyReturn
  | thrown (e : String)
  | success (respText : String)
  deriving DecidableEq, Repr

/-- The effect of one `/api/chat` request (src/index.js) on the stored
`ChatHistory`. `sessionHistory` aliases the stored array when the entry
exists, so the `sessionHistory.push({role: 'user', ...})` is visible in the
store immediately; the model push, the 20-entry cap (`slice(-20)`) and the
`ChatHistory.set` happen only on the successful path. A falsy message is
rejected with a 400 before anything is pushed. -/
def chatRequest (store : ChatStore) (userId message : String)
    (outcome : ChatOutcome) : ChatStore :=
  if message.isEmpty then store
  else
    let existing := jsMapGet store userId
    let hist1 := existing.getD [] ++ [⟨"user", message⟩]
    let store1 := match existing with
      | some _ => jsMapSet store userId hist1
      | none => store
    match outcome with
    | .earlyReturn => store1
    | .thrown _ => store1
    | .success t =>
      let hist2 := hist1 ++ [⟨"model", t⟩]
      let hist3 := if hist2.length > 20 then hist2.drop (hist2.length - 20) else hist2
      jsMapSet store1 userId hist3

/-- Split a character list at every character satisfying `p`, keeping empty
segments, as JS `String.prototype.split` with a single-character-class regex
does. -/
def charsSplit (p : Char → Bool) : List Char → List (List Char)
  | [] => [[]]
  | c :: cs =>
    if p c then [] :: charsSplit p cs
    else
      match charsSplit p cs with
      | [] => [[c]]
      | seg :: segs => (c :: seg) :: segs

/-- `filePath.split(/[\\/]/)` from `writeToFile`. -/
def jsSplitPath (filePath : String) : List String :=
  (charsSplit (fun c => c = '/' || c = '\\') filePath.data).map fun l => ⟨l⟩

/-- JS `Array.prototype.findIndex`, as an `Option Nat`. -/
def jsFindIndex {α : Type} (p : α → Bool) : List α → Option Nat
  | [] => none
  | a :: l => if p a then some 0 else (jsFindIndex p l).map (· + 1)

/-- The message of the error thrown for a non-conforming path in
`writeToFile`, as the caller sees it after the catch block prepends `Error: `. -/
def invalidPathMsg : String :=
  "Error: Invalid file path. Expected format: projects/projectName/fileName"

/-- `writeToFile({filePath, content}, userId)` from src/index.js. `storageReady`
models the storage-initialization wait having succeeded or timed out;
`saveFile` is the storage collaborator. Returns the textual tool result and,
for instrumentation, `some (projectName, fileName)` exactly when
`storage.saveFile` was invoked. The path must contain a segment `projects`
with `projectsIndex < pathParts.length - 2`; the project and file names are
the two segments after the first `projects` segment. All failures are caught
and rendered as `Error: ...` strings. -/
def writeToFile (filePath content : String) (userId : Option String)
    (storageReady : Bool)
    (saveFile : String → String → String → Option String → Except String Unit) :
    String × Option (String × String) :=
  if !storageReady then
    ("Error: Storage service not initialized. Please restart the server.", none)
  else
    let pathParts := jsSplitPath filePath
    match jsFindIndex (fun part => part = "projects") pathParts with
    | none => (invalidPathMsg, none)
    | some projectsIndex =>
      if pathParts.length ≤ projectsIndex + 2 then (invalidPathMsg, none)
      else
        let projectName := (pathParts.get? (projectsIndex + 1)).getD ""
        let fileName := (pathParts.get? (projectsIndex + 2)).getD ""
        match saveFile projectName fileName content userId with
        | .ok _ =>
          ("Success: Content written to " ++ fileName ++ " in project " ++ projectName,
           some (projectName, fileName))
        | .error e => ("Error: " ++ e, some (projectName, fileName))

/-- The tool name recorded by a model `functionCall` turn, if any. -/
def turnCallName (t : Turn) : Option String :=
  if t.role = "model" then
    t.parts.findSome? fun p =>
      match p with
      | .functionCall fc => some fc.name
      | _ => none
  else none

/-- The tool name recorded by a user `functionResponse` turn, if any. -/
def turnResultName (t : Turn) : Option String :=
  if t.role = "user" then
    t.parts.findSome? fun p =>
      match p with
      | .functionResponse n _ => some n
      | _ => none
  else none

/-- The §3 transcript invariant: every model `toolCall` turn is immediately
followed by exactly one user `toolResult` turn for the same tool, and
`toolResult` turns occur nowhere else, before any further model turn. -/
def wellPaired : List Turn → Bool
  | [] => true
  | t :: rest =>
    match turnCallName t with
    | some n =>
      match rest with
      | [] => false
      | r :: rest2 => (turnResultName r = some n) && wellPaired rest2
    | none => (turnResultName t).isNone && wellPaired rest

/-- The tool names the update-mode policy lets through to execution. -/
def updateAllowedTools : List String :=
  ["updateProjectFiles", "readProjectFiles", "listProjects"]

theorem jsMapGet_jsMapSet_self {α : Type} (s : List (String × α)) (k : String)
    (v : α) : jsMapGet (jsMapSet s k v) k = some v := by
  induction s with
  | nil => simp [jsMapGet, jsMapSet]
  | cons kv rest ih =>
    by_cases h : kv.1 = k
    · simp [jsMapGet, jsMapSet, h]
    · simp [jsMapGet, jsMapSet, h, ih]

theorem turnCallName_userTextTurn (s : String) :
    turnCallName (userTextTurn s) = none := rfl

theorem turnResultName_userTextTurn (s : String) :
    turnResultName (userTextTurn s) = none := rfl

theorem turnCallName_modelTextTurn (t : Option String) :
    turnCallName (modelTextTurn t) = none := rfl

theorem turnResultName_modelTextTurn (t : Option String) :
    turnResultName (modelTextTurn t) = none := rfl

theorem turnCallName_modelCallTurn (fc : FunctionCall) :
    turnCallName (modelCallTurn fc) = some fc.name := rfl

theorem turnResultName_modelCallTurn (fc : FunctionCall) :
    turnResultName (modelCallTurn fc) = none := rfl

theorem turnCallName_userResultTurn (n : String) (r : JsValue) :
    turnCallName (userResultTurn n r) = none := rfl

theorem turnResultName_userResultTurn (n : String) (r : JsValue) :
    turnResultName (userResultTurn n r) = some n := rfl

theorem wellPaired_append : ∀ (a b : List Turn), wellPaired a = true →
    wellPaired b = true → wellPaired (a ++ b) = true
  | [], _, _, hb => hb
  | t :: rest, b, ha, hb => by
    rw [wellPaired] at ha
    rw [List.cons_append, wellPaired]
    cases hc : turnCallName t with
    | none =>
      rw [hc] at ha
      simp only [Bool.and_eq_true] at ha
      simp only [Bool.and_eq_true]
      exact ⟨ha.1, wellPaired_append rest b ha.2 hb⟩
    | some n =>
      rw [hc] at ha
      cases rest with
      | nil => simp at ha
      | cons r rest2 =>
        simp only [Bool.and_eq_true] at ha
        simp only [List.cons_append, Bool.and_eq_true]
        exact ⟨ha.1, wellPaired_append rest2 b ha.2 hb⟩

theorem wellPaired_userTextTurn (s : String) :
    wellPaired [userTextTurn s] = true := rfl

theorem wellPaired_modelTextTurn (t : Option String) :
    wellPaired [modelTextTurn t] = true := rfl

theorem wellPaired_callResultPair (fc : FunctionCall) (r : JsValue) :
    wellPaired [modelCallTurn fc, userResultTurn fc.name r] = true := by
  simp [wellPaired, turnCallName_modelCallTurn, turnResultName_userResultTurn]

theorem seedTurns_wellPaired (up : Bool) (pn : String) (rf : ReadFilesOutcome) :
    wellPaired (seedTurns up pn rf) = true := by
  unfold seedTurns
  split
  · cases rf with
    | thrown e => rfl
    | errString s => rfl
    | files m =>
      simp only
      split
      · rfl
      · split
        · simp [wellPaired, updateContextTurn, cssContextTurn,
            turnCallName_userTextTurn, turnResultName_userTextTurn]
        · simp [wellPaired, updateContextTurn,
            turnCallName_userTextTurn, turnResultName_userTextTurn]
  · rfl

theorem agentLoop_wellPaired (up : Bool) (pn : String) (uid : Option String)
    (te : String → JsValue → Option String → JsValue) :
    ∀ (events : List (Nat → Except String GenResponse)) (hist : List Turn)
      (log : List (String × JsValue)), wellPaired hist = true →
      wellPaired (agentLoop up pn uid te events hist log).2.1 = true := by
  intro events
  induction events with
  | nil => intro hist log h; simpa [agentLoop] using h
  | cons fn rest ih =>
    intro hist log h
    rw [agentLoop]
    split
    · exact h
    · exact h
    · split
      · exact ih _ _ (wellPaired_append _ _ h (wellPaired_userTextTurn _))
      · split
        · split
          · exact ih _ _ (wellPaired_append _ _ h (wellPaired_userTextTurn _))
          · split
            · exact ih _ _ (wellPaired_append _ _ h (wellPaired_userTextTurn _))
            · split
              · exact ih _ _ (wellPaired_append _ _ h (wellPaired_callResultPair _ _))
              · exact h
        · split
          · exact h
          · exact wellPaired_append _ _ h (wellPaired_modelTextTurn _)

theorem mem_updateAllowedTools_of_policy (n : String)
    (h : ¬(true && decide (n ≠ "updateProjectFiles") && decide (n ≠ "readProjectFiles") &&
        decide (n ≠ "listProjects")) = true) : n ∈ updateAllowedTools := by
  simp only [updateAllowedTools, List.mem_cons, List.not_mem_nil, or_false]
  simp only [Bool.and_eq_true, decide_eq_true_eq, true_and] at h
  tauto

theorem agentLoop_update_log (pn : String) (uid : Option String)
    (te : String → JsValue → Option String → JsValue) :
    ∀ (events : List (Nat → Except String GenResponse)) (hist : List Turn)
      (log : List (String × JsValue)),
      (∀ x ∈ log, x.1 ∈ updateAllowedTools) →
      ∀ x ∈ (agentLoop true pn uid te events hist log).2.2,
        x.1 ∈ updateAllowedTools := by
  intro events
  induction events with
  | nil => intro hist log h; simpa [agentLoop] using h
  | cons fn rest ih =>
    intro hist log h
    rw [agentLoop]
    split
    · exact h
    · exact h
    · split
      · exact ih _ _ h
      · split
        · rename_i fc fcs heqFC
          split
          · exact ih _ _ h
          · rename_i hwf
            split
            · exact ih _ _ h
            · rename_i hpol
              split
              · refine ih _ _ ?_
                intro x hx
                rcases List.mem_append.mp hx with hx | hx
                · exact h x hx
                · have hx' : x = (fc.name, fc.args) := by simpa using hx
                  subst hx'
                  exact mem_updateAllowedTools_of_policy fc.name hpol
              · exact h
        · split
          · exact h
          · exact h

theorem jsFindIndex_some_get {α : Type} (p : α → Bool) :
    ∀ (l : List α) (i : Nat), jsFindIndex p l = some i →
      ∃ a, l.get? i = some a ∧ p a = true := by
  intro l
  induction l with
  | nil => intro i h; simp [jsFindIndex] at h
  | cons a l ih =>
    intro i h
    rw [jsFindIndex] at h
    by_cases hp : p a
    · simp only [hp, if_true] at h
      obtain rfl : (0 : Nat) = i := Option.some.inj h
      exact ⟨a, rfl, hp⟩
    · simp only [hp, if_false, Bool.false_eq_true] at h
      cases hj : jsFindIndex p l with
      | none => rw [hj, Option.map_none'] at h; exact Option.noConfusion h
      | some j =>
        rw [hj] at h
        simp only [Option.map_some'] at h
        obtain rfl : j + 1 = i := Option.some.inj h
        obtain ⟨b, hb, hpb⟩ := ih j hj
        exact ⟨b, by simpa using hb, hpb⟩

theorem jsFindIndex_eq_some {α : Type} (p : α → Bool) :
    ∀ (l : List α) (i : Nat) (a : α), l.get? i = some a → p a = true →
      (∀ j, j < i → ∀ b, l.get? j = some b → p b = false) →
      jsFindIndex p l = some i := by
  intro l
  induction l with
  | nil => intro i a h _ _; simp at h
  | cons c l ih =>
    intro i a hget hpa hmin
    cases i with
    | zero =>
      simp only [List.get?] at hget
      obtain rfl : c = a := Option.some.inj hget
      simp [jsFindIndex, hpa]
    | succ i =>
      have hc : p c = false := hmin 0 (Nat.succ_pos _) c rfl
      rw [jsFindIndex]
      rw [ih i a (by simpa using hget) hpa
        (fun j hj b hb => hmin (j + 1) (Nat.succ_lt_succ hj) b (by simpa using hb))]
      simp [hc]

/-- C3: with `maxAttempts = 3`, an operation failing with the transient 503
marker on every attempt is invoked exactly 3 times, with sleeps of
`baseDelay` between attempts 1 and 2 and `2*baseDelay` between attempts 2
and 3, and the third failure propagates; an operation whose first failure is
non-transient is invoked exactly once and that error propagates
immediately. -/
theorem retry_boundary {α : Type} (baseDelay : Nat) (errs : Nat → String)
    (fn : Nat → Except String α) (e : String)
    (htrans : ∀ i, (errs i).isEmpty = false ∧ jsIncludes (errs i) "503" = true)
    (hfirst : fn 1 = .error e)
    (hnon : e.isEmpty = true ∨ jsIncludes e "503" = false) :
    retryWithBackoff (fun i => (.error (errs i) : Except String α)) 3 baseDelay =
      (.error (errs 3), 3, [baseDelay, baseDelay * 2]) ∧
    retryWithBackoff fn 3 baseDelay = (.error e, 1, []) := by
  constructor
  · simp [retryWithBackoff, retryLoop, (htrans 1).1, (htrans 1).2,
      (htrans 2).1, (htrans 2).2, pow_succ]
  · rcases hnon with hnon | hnon
    · simp [retryWithBackoff, retryLoop, hfirst, hnon]
    · simp [retryWithBackoff, retryLoop, hfirst, hnon]

/-- C7: `extractResponseText` handles the three defensive response shapes:
a (truthy) direct text field is returned as is; absent that, the first
candidate's first content part is returned; and a candidate whose content
exists but has no `parts` field (and no text of its own) degrades to the
empty string instead of failing. -/
theorem extract_response_text_shapes (r1 r2 r3 : GenResponse) (t : String)
    (c2 c3 : Candidate) (cs2 cs3 : List Candidate) (p : RespPart)
    (ps : List RespPart)
    (h1 : r1.text = some t) (ht : t.isEmpty = false)
    (h2t : r2.text = none) (h2c : r2.candidates = some (c2 :: cs2))
    (h2m : c2.finishReason ≠ some "MALFORMED_FUNCTION_CALL")
    (h2p : c2.content = some ⟨some (p :: ps)⟩)
    (h3t : r3.text = none) (h3c : r3.candidates = some (c3 :: cs3))
    (h3m : c3.finishReason ≠ some "MALFORMED_FUNCTION_CALL")
    (h3p : c3.content = some ⟨none⟩) (h3x : c3.text = none) :
    extractResponseText r1 = .ok (some t) ∧
    extractResponseText r2 = .ok p.text ∧
    extractResponseText r3 = .ok (some "") := by
  refine ⟨?_, ?_, ?_⟩
  · rw [extractResponseText, h1]
    simp [optStrTruthy, ht]
  · rw [extractResponseText, h2t, h2c]
    simp [optStrTruthy, h2m, h2p]
  · rw [extractResponseText, h3t, h3c]
    simp [optStrTruthy, h3m, h3p, h3x]

theorem runAgent_toolCalls_eq (store : Store) (prob pn : String) (up : Bool)
    (uid : Option String) (rf : ReadFilesOutcome)
    (te : String → JsValue → Option String → JsValue)
    (events : List (Nat → Except String GenResponse)) :
    (runAgent store prob pn up uid rf te events).toolCalls =
      (agentLoop up pn uid te events
        ((jsMapGet (ensureProjectEntry store pn) pn).getD [] ++
          seedTurns up pn rf ++ [userTextTurn prob]) []).2.2 := by
  simp only [runAgent]
  rcases agentLoop up pn uid te events
      ((jsMapGet (ensureProjectEntry store pn) pn).getD [] ++
        seedTurns up pn rf ++ [userTextTurn prob]) [] with ⟨o, fh, lg⟩
  cases o <;> rfl

/-- C1: in an update-mode run, a model request for a tool outside
{updateProjectFiles, readProjectFiles, listProjects} never reaches the
handler — every executed tool call in the run is one of the three allowed
names — and on such a request the loop appends the corrective user turn and
re-enters generation with the mode still update. -/
theorem update_mode_policy (store : Store) (prob pn : String)
    (uid : Option String) (rf : ReadFilesOutcome)
    (te : String → JsValue → Option String → JsValue)
    (events rest : List (Nat → Except String GenResponse))
    (r : GenResponse) (fc : FunctionCall) (fcs : List FunctionCall)
    (hist : List Turn) (callLog : List (String × JsValue))
    (n : String) (a : JsValue)
    (hmem : (n, a) ∈ (runAgent store prob pn true uid rf te events).toolCalls)
    (hmal : isMalformedResponse r = false)
    (hfc : r.functionCalls = some (fc :: fcs))
    (hname : fc.name ∉ updateAllowedTools) :
    n ∈ updateAllowedTools ∧
    agentLoop true pn uid te ((fun _ => .ok r) :: rest) hist callLog =
      agentLoop true pn uid te rest
        (hist ++ [userTextTurn (updateRejectionText pn fc.name)]) callLog := by
  constructor
  · rw [runAgent_toolCalls_eq] at hmem
    exact agentLoop_update_log pn uid te events _ [] (by simp) (n, a) hmem
  · have hret : (retryWithBackoff (fun _ => (.ok r : Except String GenResponse))
        3 1000).1 = .ok (some r) := rfl
    rw [agentLoop, hret]
    simp only [hmal, Bool.false_eq_true, if_false, hfc]
    by_cases hwf : fc.name = "writeToFile"
    · simp [hwf, updateRejectionText]
    · have hu : fc.name ≠ "updateProjectFiles" := fun hc => hname (by rw [hc]; decide)
      have hr : fc.name ≠ "readProjectFiles" := fun hc => hname (by rw [hc]; decide)
      have hl : fc.name ≠ "listProjects" := fun hc => hname (by rw [hc]; decide)
      simp [hwf, hu, hr, hl, updateRejectionText]

/-- C2: for every completed run, the persisted project history satisfies the
turn-pairing transcript invariant — each model tool-call turn is immediately
followed by exactly one user tool-result turn for that tool before any
further turn — provided the history stored before the run satisfied it. -/
theorem run_preserves_turn_pairing (store : Store) (prob pn : String) (up : Bool)
    (uid : Option String) (rf : ReadFilesOutcome)
    (te : String → JsValue → Option String → JsValue)
    (events : List (Nat → Except String GenResponse))
    (hbase : wellPaired ((jsMapGet store pn).getD []) = true) :
    wellPaired
      ((jsMapGet (runAgent store prob pn up uid rf te events).store pn).getD []) =
      true := by
  have hbase1 : wellPaired ((jsMapGet (ensureProjectEntry store pn) pn).getD []) = true := by
    unfold ensureProjectEntry
    cases hg : jsMapGet store pn with
    | some h0 => simp only [hg]; exact hg ▸ hbase
    | none => simp only [hg, jsMapGet_jsMapSet_self]; rfl
  have hcur : wellPaired ((jsMapGet (ensureProjectEntry store pn) pn).getD [] ++
      seedTurns up pn rf ++ [userTextTurn prob]) = true :=
    wellPaired_append _ _
      (wellPaired_append _ _ hbase1 (seedTurns_wellPaired up pn rf))
      (wellPaired_userTextTurn prob)
  rcases hres : agentLoop up pn uid te events
      ((jsMapGet (ensureProjectEntry store pn) pn).getD [] ++
        seedTurns up pn rf ++ [userTextTurn prob]) [] with ⟨o, fh, lg⟩
  have hfh : wellPaired fh = true := by
    have h := agentLoop_wellPaired up pn uid te events
      ((jsMapGet (ensureProjectEntry store pn) pn).getD [] ++
        seedTurns up pn rf ++ [userTextTurn prob]) [] hcur
    rw [hres] at h
    exact h
  simp only [runAgent, hres]
  cases o with
  | returned t => simp only [jsMapGet_jsMapSet_self, Option.getD_some]; exact hfh
  | threw e => exact hbase1
  | outOfScript => exact hbase1

/-- C9: a run that propagates a failure out of the loop persists none of the
turns accumulated during the run: the resulting store is just the pre-run
store with the project entry ensured, and the stored history for the project
is exactly the history stored before the run (the empty list if there was
none). -/
theorem failed_run_not_persisted (store : Store) (prob pn : String) (up : Bool)
    (uid : Option String) (rf : ReadFilesOutcome)
    (te : String → JsValue → Option String → JsValue)
    (events : List (Nat → Except String GenResponse)) (e : String)
    (hfail : (runAgent store prob pn up uid rf te events).outcome = .threw e) :
    (runAgent store prob pn up uid rf te events).store =
        ensureProjectEntry store pn ∧
    jsMapGet (runAgent store prob pn up uid rf te events).store pn =
      some ((jsMapGet store pn).getD []) := by
  have hstore : (runAgent store prob pn up uid rf te events).store =
      ensureProjectEntry store pn := by
    rcases hres : agentLoop up pn uid te events
        ((jsMapGet (ensureProjectEntry store pn) pn).getD [] ++
          seedTurns up pn rf ++ [userTextTurn prob]) [] with ⟨o, fh, lg⟩
    simp only [runAgent, hres] at hfail ⊢
    cases o with
    | returned t => simp at hfail
    | threw e2 => rfl
    | outOfScript => rfl
  refine ⟨hstore, ?_⟩
  rw [hstore]
  unfold ensureProjectEntry
  cases hg : jsMapGet store pn with
  | some h0 => simp only [hg]; rfl
  | none => simp only [hg, jsMapGet_jsMapSet_self]; rfl

theorem agentLoop_malformed_step (up : Bool) (pn : String) (uid : Option String)
    (te : String → JsValue → Option String → JsValue) (r : GenResponse)
    (rest : List (Nat → Except String GenResponse)) (hist : List Turn)
    (log : List (String × JsValue)) (hmal : isMalformedResponse r = true) :
    agentLoop up pn uid te ((fun _ => .ok r) :: rest) hist log =
      agentLoop up pn uid te rest
        (hist ++ [userTextTurn (malformedCorrectionText pn)]) log := by
  rw [agentLoop]
  have hret : (retryWithBackoff (fun _ => (.ok r : Except String GenResponse))
      3 1000).1 = .ok (some r) := rfl
  rw [hret]
  simp only [hmal, if_true]

theorem agentLoop_text_step (up : Bool) (pn : String) (uid : Option String)
    (te : String → JsValue → Option String → JsValue) (r : GenResponse)
    (rest : List (Nat → Except String GenResponse)) (hist : List Turn)
    (log : List (String × JsValue)) (t : Option String)
    (hmal : isMalformedResponse r = false) (hfc : r.functionCalls = none)
    (hex : extractResponseText r = .ok t) :
    agentLoop up pn uid te ((fun _ => .ok r) :: rest) hist log =
      (.returned t, hist ++ [modelTextTurn t], log) := by
  rw [agentLoop]
  have hret : (retryWithBackoff (fun _ => (.ok r : Except String GenResponse))
      3 1000).1 = .ok (some r) := rfl
  rw [hret]
  simp only [hmal, Bool.false_eq_true, if_false, hfc, hex]

/-- C4: when the backend reports a malformed tool call once and then answers
with the plain text "ok", the run appends exactly one corrective user turn for
the malformed call, terminates successfully returning "ok", and the malformed
outcome is not routed through the backoff retry: that generate call used
exactly one invocation of the operation and slept zero times. -/
theorem malformed_recovery (store : Store) (prob pn : String) (up : Bool)
    (uid : Option String) (rf : ReadFilesOutcome)
    (te : String → JsValue → Option String → JsValue)
    (r1 : GenResponse) (hmal : isMalformedResponse r1 = true) :
    runAgent store prob pn up uid rf te
        [fun _ => .ok r1, fun _ => .ok ⟨some "ok", none, none⟩] =
      ⟨.returned (some "ok"),
       jsMapSet (ensureProjectEntry store pn) pn
         ((jsMapGet (ensureProjectEntry store pn) pn).getD [] ++
           seedTurns up pn rf ++ [userTextTurn prob] ++
           [userTextTurn (malformedCorrectionText pn)] ++
           [modelTextTurn (some "ok")]),
       []⟩ ∧
    retryWithBackoff (fun _ => (.ok r1 : Except String GenResponse)) 3 1000 =
      (.ok (some r1), 1, []) := by
  refine ⟨?_, rfl⟩
  simp only [runAgent]
  rw [agentLoop_malformed_step up pn uid te r1 _ _ _ hmal,
    agentLoop_text_step up pn uid te ⟨some "ok", none, none⟩ [] _ _
      (some "ok") rfl rfl rfl]

/-- C5: a create-mode run from an empty store in which the model requests
writeToFile three times and then answers "Done" persists exactly 8 turns —
the seed user request, three model-call/user-result pairs, and the final
model text — and returns "Done". -/
theorem happy_path_create (uid : Option String) (rf : ReadFilesOutcome)
    (te : String → JsValue → Option String → JsValue) (a1 a2 a3 : JsValue) :
    runAgent [] "a portfolio site" "proj1" false uid rf te
        [fun _ => .ok ⟨none, none, some [⟨"writeToFile", a1⟩]⟩,
         fun _ => .ok ⟨none, none, some [⟨"writeToFile", a2⟩]⟩,
         fun _ => .ok ⟨none, none, some [⟨"writeToFile", a3⟩]⟩,
         fun _ => .ok ⟨some "Done", none, none⟩] =
      ⟨.returned (some "Done"),
       [("proj1",
         [userTextTurn "a portfolio site",
          modelCallTurn ⟨"writeToFile", a1⟩,
          userResultTurn "writeToFile" (te "writeToFile" a1 uid),
          modelCallTurn ⟨"writeToFile", a2⟩,
          userResultTurn "writeToFile" (te "writeToFile" a2 uid),
          modelCallTurn ⟨"writeToFile", a3⟩,
          userResultTurn "writeToFile" (te "writeToFile" a3 uid),
          modelTextTurn (some "Done")])],
       [("writeToFile", a1), ("writeToFile", a2), ("writeToFile", a3)]⟩ := rfl

/-- C8: during update-mode seeding a failed read (a thrown error, caught and
swallowed, or an `Error: ...` string value) contributes no context turns; a
successful read appends the structured summary turn, plus the literal
style-file turn exactly when `style.css` is present; and in every case the
new user request turn follows the seed turns and the run proceeds. -/
theorem update_seeding_behavior (store : Store) (prob pn : String)
    (uid : Option String) (rf : ReadFilesOutcome)
    (te : String → JsValue → Option String → JsValue)
    (e s : String) (m : List (String × String))
    (hpn : pn.isEmpty = false)
    (hne : fileTruthy m "error" = false) :
    seedTurns true pn (.thrown e) = [] ∧
    seedTurns true pn (.errString s) = [] ∧
    seedTurns true pn (.files m) =
      updateContextTurn pn m ::
        (if fileTruthy m "style.css" then
          [cssContextTurn ((jsMapGet m "style.css").getD "")] else []) ∧
    runAgent store prob pn true uid rf te [fun _ => .ok ⟨some "done", none, none⟩] =
      ⟨.returned (some "done"),
       jsMapSet (ensureProjectEntry store pn) pn
         ((jsMapGet (ensureProjectEntry store pn) pn).getD [] ++
           seedTurns true pn rf ++ [userTextTurn prob] ++
           [modelTextTurn (some "done")]),
       []⟩ := by
  refine ⟨?_, ?_, ?_, rfl⟩
  · simp [seedTurns, hpn]
  · simp [seedTurns, hpn]
  · simp [seedTurns, hpn, hne]

/-- C6 counterexample: a chat request that takes the early unknown-project
return pushes the user message into an existing 20-entry session in place and
completes leaving 21 stored entries, so the stored history is not capped at
20 after every completed request. -/
theorem chat_eviction_counterexample :
    ¬ ((jsMapGet (chatRequest [("u1", List.replicate 20 (ChatMsg.mk "user" "x"))]
        "u1" "update foo" .earlyReturn) "u1").getD []).length ≤ 20 := by decide

/-- C6 (amended): after a chat request that reaches the normal completion
path (a model response is appended), the stored session history is the
most-recent suffix of the previous history extended by the new user and
model entries, so it is capped at 20 entries with the oldest evicted first
and the order of the remaining entries preserved; only a request that
returns early or throws leaves the pushed user entry uncapped. -/
theorem chat_eviction_amended (store : ChatStore) (userId msg t : String)
    (hmsg : msg.isEmpty = false) :
    jsMapGet (chatRequest store userId msg (.success t)) userId =
      some (((jsMapGet store userId).getD [] ++
          [ChatMsg.mk "user" msg, ChatMsg.mk "model" t]).drop
        (((jsMapGet store userId).getD [] ++
          [ChatMsg.mk "user" msg, ChatMsg.mk "model" t]).length - 20)) ∧
    ((jsMapGet (chatRequest store userId msg (.success t)) userId).getD
        []).length ≤ 20 := by
  have hmain : jsMapGet (chatRequest store userId msg (.success t)) userId =
      some (((jsMapGet store userId).getD [] ++
          [ChatMsg.mk "user" msg, ChatMsg.mk "model" t]).drop
        (((jsMapGet store userId).getD [] ++
          [ChatMsg.mk "user" msg, ChatMsg.mk "model" t]).length - 20)) := by
    rw [chatRequest]
    simp only [hmsg, Bool.false_eq_true, if_false]
    cases hex : jsMapGet store userId with
    | some h0 =>
      simp only [hex, Option.getD_some, jsMapGet_jsMapSet_self]
      by_cases hlen : (h0 ++ [ChatMsg.mk "user" msg] ++
          [ChatMsg.mk "model" t]).length > 20
      · simp only [hlen, if_true]
        congr 1
        simp [List.append_assoc]
      · simp only [hlen, if_false]
        simp only [not_lt] at hlen
        simp only [List.append_assoc, List.cons_append, List.nil_append] at hlen ⊢
        have h20 : (h0 ++ [ChatMsg.mk "user" msg, ChatMsg.mk "model" t]).length -
            20 = 0 := by
          simp only [List.length_append, List.length_cons, List.length_nil] at hlen ⊢
          omega
        rw [h20, List.drop_zero]
    | none =>
      simp only [hex, Option.getD_none, jsMapGet_jsMapSet_self]
      simp [List.nil_append]
  refine ⟨hmain, ?_⟩
  rw [hmain]
  simp only [Option.getD_some, List.length_drop]
  omega

/-- C10: `writeToFile` rejects, with an `Error:`-prefixed result and without
invoking the storage save, every path whose segments contain no `projects`
segment followed by at least two further segments; on a conforming path
(storage ready) it invokes the save with the segment after the first
`projects` segment as the project name and the next segment as the file
name. -/
theorem write_to_file_path_policy (filePath path2 content : String)
    (uid : Option String) (ready : Bool)
    (save : String → String → String → Option String → Except String Unit)
    (i : Nat)
    (hbad : ∀ j, j < (jsSplitPath filePath).length →
      (jsSplitPath filePath).get? j = some "projects" →
      (jsSplitPath filePath).length ≤ j + 2)
    (hat : (jsSplitPath path2).get? i = some "projects")
    (hlen : i + 2 < (jsSplitPath path2).length)
    (hfirst : ∀ j, j < i → (jsSplitPath path2).get? j ≠ some "projects") :
    (strStartsWith (writeToFile filePath content uid ready save).1 "Error:" = true ∧
     (writeToFile filePath content uid ready save).2 = none) ∧
    (writeToFile path2 content uid true save).2 =
      some (((jsSplitPath path2).get? (i + 1)).getD "",
            ((jsSplitPath path2).get? (i + 2)).getD "") := by
  constructor
  · rw [writeToFile]
    cases ready with
    | false =>
      refine ⟨?_, rfl⟩
      show strStartsWith
        "Error: Storage service not initialized. Please restart the server."
        "Error:" = true
      decide
    | true =>
      simp only [Bool.not_true, Bool.false_eq_true, if_false]
      cases hfi : jsFindIndex (fun part => part = "projects") (jsSplitPath filePath) with
      | none =>
        refine ⟨?_, rfl⟩
        show strStartsWith invalidPathMsg "Error:" = true
        decide
      | some i0 =>
        obtain ⟨a, hga, hpa⟩ := jsFindIndex_some_get _ _ _ hfi
        have ha : a = "projects" := of_decide_eq_true hpa
        subst ha
        have hi0 : i0 < (jsSplitPath filePath).length := by
          rcases List.get?_eq_some.mp hga with ⟨h, _⟩
          exact h
        have hle : (jsSplitPath filePath).length ≤ i0 + 2 := hbad i0 hi0 hga
        simp only [if_pos hle]
        exact ⟨by decide, trivial⟩
  · rw [writeToFile]
    simp only [Bool.not_true, Bool.false_eq_true, if_false]
    have hfi : jsFindIndex (fun part => part = "projects") (jsSplitPath path2) =
        some i := by
      refine jsFindIndex_eq_some _ _ i "projects" hat (by decide) ?_
      intro j hj b hb
      apply decide_eq_false
      intro hbp
      exact hfirst j hj (by rw [hb, hbp])
    simp only [hfi]
    rw [if_neg (by omega)]
    cases hs : save (((jsSplitPath path2).get? (i + 1)).getD "")
        (((jsSplitPath path2).get? (i + 2)).getD "") content uid with
    | ok u => simp [hs]
    | error e => simp [hs]

/-- Witness for C1: a concrete update run whose only executed tool is
updateProjectFiles, and a concrete rejected deployProject request. -/
theorem update_mode_policy_witness :
    "updateProjectFiles" ∈ updateAllowedTools ∧
    agentLoop true "proj" none (fun _ _ _ => JsValue.str "r")
        [fun _ => .ok ⟨none, none, some [⟨"deployProject", JsValue.str "b"⟩]⟩] [] [] =
      agentLoop true "proj" none (fun _ _ _ => JsValue.str "r") []
        ([] ++ [userTextTurn (updateRejectionText "proj" "deployProject")]) [] :=
  update_mode_policy [] "p" "proj" none (.errString "x")
    (fun _ _ _ => JsValue.str "r")
    [fun _ => .ok ⟨none, none, some [⟨"updateProjectFiles", JsValue.str "a"⟩]⟩,
     fun _ => .ok ⟨some "ok", none, none⟩]
    [] ⟨none, none, some [⟨"deployProject", JsValue.str "b"⟩]⟩
    ⟨"deployProject", JsValue.str "b"⟩ [] [] []
    "updateProjectFiles" (JsValue.str "a")
    (by decide) (by decide) rfl (by decide)

/-- Witness for C2 at a concrete one-answer run from an empty store. -/
theorem run_preserves_turn_pairing_witness :
    wellPaired ((jsMapGet (runAgent [] "p" "proj" false none (.errString "x")
        (fun _ _ _ => JsValue.str "r")
        [fun _ => .ok ⟨some "ok", none, none⟩]).store "proj").getD []) = true :=
  run_preserves_turn_pairing [] "p" "proj" false none (.errString "x")
    (fun _ _ _ => JsValue.str "r") [fun _ => .ok ⟨some "ok", none, none⟩]
    (by decide)

/-- Witness for C3 with baseDelay 7: an always-503 operation and a
non-transient one. -/
theorem retry_boundary_witness :
    retryWithBackoff (fun _ => (.error "503 overloaded" : Except String Unit))
        3 7 = (.error "503 overloaded", 3, [7, 14]) ∧
    retryWithBackoff (fun _ => (.error "boom" : Except String Unit)) 3 7 =
      (.error "boom", 1, []) :=
  retry_boundary 7 (fun _ => "503 overloaded") (fun _ => .error "boom") "boom"
    (fun _ => ⟨rfl, rfl⟩) rfl (Or.inr rfl)

/-- Witness for C4 at a concrete malformed response followed by "ok". -/
theorem malformed_recovery_witness :
    runAgent [] "p" "proj" false none (.errString "x")
        (fun _ _ _ => JsValue.str "r")
        [fun _ => .ok ⟨none, some [⟨some "MALFORMED_FUNCTION_CALL", none, none⟩], none⟩,
         fun _ => .ok ⟨some "ok", none, none⟩] =
      ⟨.returned (some "ok"),
       jsMapSet (ensureProjectEntry [] "proj") "proj"
         ((jsMapGet (ensureProjectEntry [] "proj") "proj").getD [] ++
           seedTurns false "proj" (.errString "x") ++ [userTextTurn "p"] ++
           [userTextTurn (malformedCorrectionText "proj")] ++
           [modelTextTurn (some "ok")]),
       []⟩ ∧
    retryWithBackoff (fun _ =>
        (.ok ⟨none, some [⟨some "MALFORMED_FUNCTION_CALL", none, none⟩], none⟩ :
          Except String GenResponse)) 3 1000 =
      (.ok (some ⟨none, some [⟨some "MALFORMED_FUNCTION_CALL", none, none⟩], none⟩),
       1, []) :=
  malformed_recovery [] "p" "proj" false none (.errString "x")
    (fun _ _ _ => JsValue.str "r")
    ⟨none, some [⟨some "MALFORMED_FUNCTION_CALL", none, none⟩], none⟩ (by decide)

/-- Witness for C6 (amended): a 19-entry session receives its 20th and 21st
entries and is capped back to 20 with the oldest entry evicted. -/
theorem chat_eviction_amended_witness :
    jsMapGet (chatRequest [("u2", List.replicate 19 (ChatMsg.mk "user" "x"))]
        "u2" "hi" (.success "yo")) "u2" =
      some ((List.replicate 19 (ChatMsg.mk "user" "x") ++
          [ChatMsg.mk "user" "hi", ChatMsg.mk "model" "yo"]).drop
        ((List.replicate 19 (ChatMsg.mk "user" "x") ++
          [ChatMsg.mk "user" "hi", ChatMsg.mk "model" "yo"]).length - 20)) ∧
    ((jsMapGet (chatRequest [("u2", List.replicate 19 (ChatMsg.mk "user" "x"))]
        "u2" "hi" (.success "yo")) "u2").getD []).length ≤ 20 :=
  chat_eviction_amended [("u2", List.replicate 19 (ChatMsg.mk "user" "x"))]
    "u2" "hi" "yo" rfl

/-- Witness for C7 at the three concrete response shapes. -/
theorem extract_response_text_shapes_witness :
    extractResponseText ⟨some "hi", none, none⟩ = .ok (some "hi") ∧
    extractResponseText
        ⟨none, some [⟨none, some ⟨some [⟨some "part"⟩]⟩, none⟩], none⟩ =
      .ok (some "part") ∧
    extractResponseText ⟨none, some [⟨some "MAX_TOKENS", some ⟨none⟩, none⟩], none⟩ =
      .ok (some "") :=
  extract_response_text_shapes ⟨some "hi", none, none⟩
    ⟨none, some [⟨none, some ⟨some [⟨some "part"⟩]⟩, none⟩], none⟩
    ⟨none, some [⟨some "MAX_TOKENS", some ⟨none⟩, none⟩], none⟩
    "hi" ⟨none, some ⟨some [⟨some "part"⟩]⟩, none⟩
    ⟨some "MAX_TOKENS", some ⟨none⟩, none⟩ [] [] ⟨some "part"⟩ []
    rfl rfl rfl rfl (by decide) rfl rfl rfl (by decide) rfl rfl

/-- Witness for C8 at a concrete files map holding index.html and a non-empty
style.css, plus the failing read shapes. -/
theorem update_seeding_behavior_witness :
    seedTurns true "proj" (.thrown "boom") = [] ∧
    seedTurns true "proj" (.errString "Error: nope") = [] ∧
    seedTurns true "proj" (.files [("index.html", "<html>"), ("style.css", "b")]) =
      updateContextTurn "proj" [("index.html", "<html>"), ("style.css", "b")] ::
        (if fileTruthy [("index.html", "<html>"), ("style.css", "b")] "style.css" then
          [cssContextTurn ((jsMapGet [("index.html", "<html>"), ("style.css", "b")]
            "style.css").getD "")]
        else []) ∧
    runAgent [] "p" "proj" true none
        (.files [("index.html", "<html>"), ("style.css", "b")])
        (fun _ _ _ => JsValue.str "r") [fun _ => .ok ⟨some "done", none, none⟩] =
      ⟨.returned (some "done"),
       jsMapSet (ensureProjectEntry [] "proj") "proj"
         ((jsMapGet (ensureProjectEntry [] "proj") "proj").getD [] ++
           seedTurns true "proj"
             (.files [("index.html", "<html>"), ("style.css", "b")]) ++
           [userTextTurn "p"] ++ [modelTextTurn (some "done")]),
       []⟩ :=
  update_seeding_behavior [] "p" "proj" none
    (.files [("index.html", "<html>"), ("style.css", "b")])
    (fun _ _ _ => JsValue.str "r") "boom" "Error: nope"
    [("index.html", "<html>"), ("style.css", "b")] rfl rfl

/-- Witness for C9 at a concrete run whose only generate call fails with a
non-transient error. -/
theorem failed_run_not_persisted_witness :
    (runAgent [] "p" "proj" false none (.errString "x")
        (fun _ _ _ => JsValue.str "r") [fun _ => .error "boom"]).store =
      ensureProjectEntry [] "proj" ∧
    jsMapGet (runAgent [] "p" "proj" false none (.errString "x")
        (fun _ _ _ => JsValue.str "r") [fun _ => .error "boom"]).store "proj" =
      some ((jsMapGet [] "proj").getD []) :=
  failed_run_not_persisted [] "p" "proj" false none (.errString "x")
    (fun _ _ _ => JsValue.str "r") [fun _ => .error "boom"] "boom" (by decide)

/-- Witness for C10 at a non-conforming path and a conforming one. -/
theorem write_to_file_path_policy_witness :
    (strStartsWith (writeToFile "index.html" "c" none false
        (fun _ _ _ _ => .ok ())).1 "Error:" = true ∧
     (writeToFile "index.html" "c" none false (fun _ _ _ _ => .ok ())).2 = none) ∧
    (writeToFile "projects/p1/f.css" "c" none true (fun _ _ _ _ => .ok ())).2 =
      some ("p1", "f.css") :=
  write_to_file_path_policy "index.html" "projects/p1/f.css" "c" none false
    (fun _ _ _ _ => .ok ()) 0 (by decide) (by decide) (by decide) (by decide)
